import Mathlib

/-!
Verification of the LotL controller (src/unnamed/part_000, v3 controller, first copy,
lines 1-1470) against its natural-language specification.

The JavaScript source is shallowly embedded:
* strings are Lean `String`/`List Char`; a JS `string | null` value is `Option String`;
* the regex tests in `cleanExtractedLines` and `parseExpectedExactToken` are expanded
  into explicit character-level scanners (the JS whitespace class `\s` is modelled by
  `jsWhitespace`, covering the ECMAScript WhiteSpace and LineTerminator code points);
* the polling loops in `LotlController.send` become fuel-indexed recursions over
  oracle functions `Nat → _` giving the value each adapter read returns at each poll;
* the promise chain in `LotlController.withLock` becomes a deterministic settlement-
  time semantics (`withLockStep`).
-/

namespace Lotl

/-! ## JS string primitives -/

/-- ECMAScript whitespace (`\s`, and the set trimmed by `String.prototype.trim`). -/
def jsWhitespace (c : Char) : Bool :=
  c = ' ' || c = '\t' || c = '\n' || c = '\r' || c = '\x0b' || c = '\x0c' ||
  c = ' ' || c = ' ' || (0x2000 ≤ c.toNat && c.toNat ≤ 0x200A) ||
  c = ' ' || c = ' ' || c = ' ' || c = ' ' || c = '　' ||
  c = '﻿'

/-- JS `String.prototype.trim` on a character list. -/
def trimChars (l : List Char) : List Char :=
  ((l.dropWhile jsWhitespace).reverse.dropWhile jsWhitespace).reverse

/-- JS `s.trim()`. -/
def jsTrim (s : String) : String := ⟨trimChars s.data⟩

/-- JS `s.replace(/\r\n/g, '\n')` (line 115 of the source). -/
def normalizeCRLF : List Char → List Char
  | [] => []
  | [c] => [c]
  | c1 :: c2 :: rest =>
    if c1 = '\r' ∧ c2 = '\n' then '\n' :: normalizeCRLF rest
    else c1 :: normalizeCRLF (c2 :: rest)

/-- Whether the list contains the two-character sequence CR LF. -/
def hasCRLF : List Char → Bool
  | [] => false
  | [_] => false
  | c1 :: c2 :: rest => (decide (c1 = '\r') && decide (c2 = '\n')) || hasCRLF (c2 :: rest)

/-- JS `s.split('\n')` on a character list (always returns at least one piece). -/
def splitOnNl : List Char → List (List Char)
  | [] => [[]]
  | c :: rest =>
    if c = '\n' then [] :: splitOnNl rest
    else
      match splitOnNl rest with
      | [] => [[c]]
      | l :: ls => (c :: l) :: ls

/-- JS `pieces.join('\n')` on character lists. -/
def joinNl : List (List Char) → List Char
  | [] => []
  | l :: ls =>
    match ls with
    | [] => l
    | _ :: _ => l ++ '\n' :: joinNl ls

/-- Lower-case every character (JS case-insensitive comparison). -/
def lowerList (l : List Char) : List Char := l.map Char.toLower

/-- Whether `pat` occurs at the head of `l` (both compared literally). -/
def listStarts : List Char → List Char → Bool
  | [], _ => true
  | _ :: _, [] => false
  | p :: ps, c :: cs => decide (p = c) && listStarts ps cs

/-- JS `hay.includes(pat)` (case-sensitive substring test). -/
def hasSubCh (pat : List Char) : List Char → Bool
  | [] => pat.isEmpty
  | c :: rest => listStarts pat (c :: rest) || hasSubCh pat rest

/-- Case-insensitive unanchored regex test `/pat/i.test(l)` for a literal `pat`
(`pat` is given lower-case). -/
def containsCi (pat : String) (l : List Char) : Bool :=
  hasSubCh pat.data (lowerList l)

/-- Anchored case-insensitive test `/^\s*w\s*$/i.test(l)`: the trimmed line equals
the (lower-case) word `w`. -/
def trimLowerEq (l : List Char) (w : String) : Bool :=
  lowerList (trimChars l) = w.data

/-- Test for `/^\s*\d+\.?\d*s\s*$/` (no `i` flag; line 120 of the source):
the trimmed line is digits, an optional dot, more digits, then a literal `s`. -/
def isDurationLine (l : List Char) : Bool :=
  let t := trimChars l
  let ds := t.takeWhile Char.isDigit
  let rest := t.dropWhile Char.isDigit
  !ds.isEmpty &&
    (match rest with
     | ['s'] => true
     | '.' :: rest2 => decide (rest2.dropWhile Char.isDigit = ['s'])
     | _ => false)

/-- The `artifactPatterns` line filter of `cleanExtractedLines`
(src/unnamed/part_000 lines 116-129). -/
def isArtifactLine (l : List Char) : Bool :=
  trimLowerEq l "edit" || trimLowerEq l "more_vert" ||
  trimLowerEq l "thumb_up" || trimLowerEq l "thumb_down" ||
  trimLowerEq l "content_copy" || trimLowerEq l "model" ||
  trimLowerEq l "user" || isDurationLine l ||
  trimLowerEq l "help" || trimLowerEq l "source" || trimLowerEq l "sources" ||
  trimLowerEq l "more options" ||
  trimLowerEq l "thoughts" ||
  containsCi "expand to view model thoughts" l ||
  trimLowerEq l "chevron_right" ||
  containsCi "google search suggestion" l ||
  containsCi "grounding with google search" l ||
  containsCi "learn more" l

/-- After a `[`, try to consume `\d+]`; return the remaining characters. -/
def citSpan (l : List Char) : Option (List Char) :=
  let ds := l.takeWhile Char.isDigit
  let rest := l.dropWhile Char.isDigit
  if ds.isEmpty then none
  else
    match rest with
    | ']' :: r => some r
    | _ => none

theorem citSpan_length_le {l r : List Char} (h : citSpan l = some r) :
    r.length ≤ l.length := by
  unfold citSpan at h
  by_cases hd : (l.takeWhile Char.isDigit).isEmpty
  · simp [hd] at h
  · simp only [hd, Bool.false_eq_true, not_false_eq_true, if_false] at h
    have hlen : (l.dropWhile Char.isDigit).length ≤ l.length :=
      (List.dropWhile_sublist _).length_le
    cases hrest : l.dropWhile Char.isDigit with
    | nil => rw [hrest] at h; cases h
    | cons c r' =>
      rw [hrest] at h
      rw [hrest, List.length_cons] at hlen
      split at h
      · simp_all
        omega
      · cases h

/-- Fuel-indexed scanner for `s.replace(/\[\d+\]/g, '')`; the fuel is always at
least the number of remaining characters. -/
def stripCitationsGo : Nat → List Char → List Char
  | 0, l => l
  | _ + 1, [] => []
  | fuel + 1, c :: rest =>
    if c = '[' then
      match citSpan rest with
      | some r => stripCitationsGo fuel r
      | none => c :: stripCitationsGo fuel rest
    else c :: stripCitationsGo fuel rest

/-- JS `s.replace(/\[\d+\]/g, '')` (line 147 of the source): remove every
occurrence of `[` digits `]`, scanning left to right. -/
def stripCitations (l : List Char) : List Char := stripCitationsGo l.length l

/-- Whether the list contains an occurrence of `[` digits `]`. -/
def hasCitation : List Char → Bool
  | [] => false
  | c :: rest => (decide (c = '[') && (citSpan rest).isSome) || hasCitation rest

/-- Adjacent-duplicate collapse of `cleanExtractedLines` (lines 137-143). -/
def dedupeAdj : List (List Char) → List (List Char)
  | [] => []
  | a :: rest =>
    match rest with
    | [] => [a]
    | b :: _ => if a = b then dedupeAdj rest else a :: dedupeAdj rest

/-- Embedding of `cleanExtractedLines` (src/unnamed/part_000 lines 114-149),
on character lists. -/
def cleanCore (text : List Char) : List Char :=
  let raw := normalizeCRLF text
  let lines := (((splitOnNl raw).map trimChars).filter (fun l => !l.isEmpty)).filter
    (fun l => !isArtifactLine l)
  let deduped := dedupeAdj lines
  let joined := trimChars (joinNl deduped)
  let afterModel := if listStarts "Model".data joined then trimChars (joined.drop 5) else joined
  trimChars (stripCitations afterModel)

/-- Embedding of `cleanExtractedLines` (src/unnamed/part_000 lines 114-149). -/
def cleanExtractedLines (s : String) : String := ⟨cleanCore s.data⟩

/-! ## `parseExpectedExactToken` (src/unnamed/part_000 lines 151-155)

`/Reply\s+with\s+exactly:\s*([^\r\n]+)\s*/i.exec(s)`, returning the trimmed first
capture (or `none` when the regex does not match). The greedy `\s+`/`\s*` pieces
are deterministic maximal munch here because each is followed by a non-whitespace
literal or by the `[^\r\n]+` capture, except at end of input, where the regex can
still match when the trailing whitespace run contains a non-CR/LF character (the
capture then trims to the empty string, which JS callers treat as falsy). -/

/-- Case-insensitive literal match at the head; `pat` is given lower-case.
Returns the rest of the input on success. -/
def matchLitCi : List Char → List Char → Option (List Char)
  | [], l => some l
  | _ :: _, [] => none
  | p :: ps, c :: cs => if p = c.toLower then matchLitCi ps cs else none

/-- `\s+`: at least one whitespace character, maximal munch. -/
def matchWsPlus (l : List Char) : Option (List Char) :=
  if (l.takeWhile jsWhitespace).isEmpty then none else some (l.dropWhile jsWhitespace)

def isCRLF (c : Char) : Bool := c = '\r' || c = '\n'

/-- `\s*([^\r\n]+)\s*` after the colon: the trimmed capture, or `none` when the
regex cannot complete at this position. -/
def captureAfterColon (rest : List Char) : Option (List Char) :=
  let ws := rest.takeWhile jsWhitespace
  let rem := rest.dropWhile jsWhitespace
  match rem with
  | [] => if ws.any (fun c => !isCRLF c) then some [] else none
  | _ :: _ => some (trimChars (rem.takeWhile (fun c => !isCRLF c)))

/-- Attempt the whole pattern anchored at the current position. -/
def matchExactAt (l : List Char) : Option (List Char) :=
  (matchLitCi "reply".data l).bind fun r1 =>
  (matchWsPlus r1).bind fun r2 =>
  (matchLitCi "with".data r2).bind fun r3 =>
  (matchWsPlus r3).bind fun r4 =>
  (matchLitCi "exactly:".data r4).bind fun r5 =>
  captureAfterColon r5

/-- Leftmost match: try every start position from the left. -/
def parseTokenCh : List Char → Option (List Char)
  | [] => none
  | c :: rest =>
    match matchExactAt (c :: rest) with
    | some tok => some tok
    | none => parseTokenCh rest

/-- Embedding of `parseExpectedExactToken` (src/unnamed/part_000 lines 151-155). -/
def parseExpectedExactToken (prompt : String) : Option String :=
  (parseTokenCh prompt.data).map (fun l => ⟨l⟩)

/-- JS truthiness of a `string | null` value: `null` and `""` are falsy. -/
def truthy : Option String → Bool
  | none => false
  | some s => !(s = "")

/-- JS `String(x || '')` for `x : string | null`. -/
def orEmpty : Option String → String
  | none => ""
  | some s => s

theorem orEmpty_some (s : String) : orEmpty (some s) = s := rfl

/-! ## `withLock` (src/unnamed/part_000 lines 741-751)

```
const ms = Number(timeoutMs || LOCK_TIMEOUT_MS_TEXT);
const timeout = new Promise((_, reject) =>
    setTimeout(() => reject(new Error(`Lock timeout (...s)`)), ms));
const prior = this._locks[platform] || Promise.resolve();
const run = prior.then(fn, fn);
this._locks[platform] = run.catch(() => undefined);
return Promise.race([run, timeout]);
```

Settlement-time semantics: a promise is modelled by the absolute time at which it
settles together with its outcome. `fn` is abstracted as a task with a duration and
a result; `prior.then(fn, fn)` starts the task when the prior tail settles (or at
the call time when the tail already settled), on fulfilment and on rejection alike.
`run.catch(() => undefined)` settles exactly when `run` does, converting rejection
into fulfilment, and becomes the new per-key tail. `Promise.race([run, timeout])`
gives the caller whichever settles first. -/

inductive POutcome where
  | fulfilled (v : String)
  | rejected (e : String)
deriving DecidableEq

/-- A settled promise: settlement time plus outcome. -/
structure Settled where
  time : Nat
  out : POutcome
deriving DecidableEq

/-- The abstract behaviour of one `fn` handed to `withLock`. -/
structure TaskSpec where
  duration : Nat
  result : POutcome
deriving DecidableEq

/-- One call to `withLock`: when it is issued, its timeout bound, and its task. -/
structure LockCall where
  callAt : Nat
  timeoutMs : Nat
  task : TaskSpec
deriving DecidableEq

/-- JS `Math.round(ms / 1000)`. -/
def jsMathRound1000 (ms : Nat) : Nat := (ms + 500) / 1000

def lockTimeoutMsg (ms : Nat) : String :=
  "Lock timeout (" ++ toString (jsMathRound1000 ms) ++ "s)"

/-- What one `withLock` call observably does: when its task starts, how the
chained `run` promise settles, and what the caller's returned promise does. -/
structure LockObs where
  start : Nat
  run : Settled
  caller : Settled
deriving DecidableEq

/-- One `withLock` call against the current per-key tail; returns the observation
and the new tail (`run.catch(() => undefined)`). -/
def withLockStep (tail : Settled) (c : LockCall) : LockObs × Settled :=
  let start := max tail.time c.callAt
  let run : Settled := ⟨start + c.task.duration, c.task.result⟩
  let caller :=
    if run.time ≤ c.callAt + c.timeoutMs then run
    else ⟨c.callAt + c.timeoutMs, .rejected (lockTimeoutMsg c.timeoutMs)⟩
  let newTail : Settled :=
    ⟨run.time,
     match run.out with
     | .rejected _ => .fulfilled "undefined"
     | .fulfilled v => .fulfilled v⟩
  (⟨start, run, caller⟩, newTail)

/-- The initial per-key tail, `Promise.resolve()` (line 670). -/
def initialTail : Settled := ⟨0, .fulfilled "undefined"⟩

/-- The chain of observations produced by a sequence of `withLock` calls against
the same platform key, in arrival order. -/
def lockScheduleGo (tail : Settled) : List LockCall → List LockObs
  | [] => []
  | c :: cs =>
    let step := withLockStep tail c
    step.1 :: lockScheduleGo step.2 cs

def lockSchedule (calls : List LockCall) : List LockObs :=
  lockScheduleGo initialTail calls

/-! ## The completion-wait loop (src/unnamed/part_000 lines 1048-1071)

```
const requiredTurnDelta = platform === 'aistudio' ? 2 : 1;
for (let i = 0; i < 180; i++) {
    await sleep(1000);
    const turnsNow = await adapter.getTurnCount(page);
    const generating = await adapter.isGenerating(page);
    if (turnsNow >= turnsBefore + requiredTurnDelta && !generating) { gotResponse = true; break; }
}
if (!gotResponse) throw new Error('Timeout waiting for response (3 min)');
```

Polls are numbered 1..180 (iteration `i` of the source is poll `i + 1`); `turns p`
and `busy p` are what `getTurnCount` and `isGenerating` return at poll `p`. -/

def requiredTurnDelta (platform : String) : Nat :=
  if platform = "aistudio" then 2 else 1

/-- The loop's exit condition at poll `p`. -/
def doneCond (turns : Nat → Nat) (busy : Nat → Bool) (target p : Nat) : Prop :=
  target ≤ turns p ∧ busy p = false

instance (turns : Nat → Nat) (busy : Nat → Bool) (target p : Nat) :
    Decidable (doneCond turns busy target p) := by
  unfold doneCond; infer_instance

def completionGo (turns : Nat → Nat) (busy : Nat → Bool) (target : Nat) :
    Nat → Nat → Option Nat
  | 0, _ => none
  | fuel + 1, p => if doneCond turns busy target p then some p
                   else completionGo turns busy target fuel (p + 1)

/-- The completion-wait loop: the poll (1-based) at which it declared the response
started, or `none` when all 180 polls were exhausted. -/
def completionWait (turns : Nat → Nat) (busy : Nat → Bool) (turnsBefore delta : Nat) :
    Option Nat :=
  completionGo turns busy (turnsBefore + delta) 180 1

/-! ## The streaming-stability loop (src/unnamed/part_000 lines 1075-1093)

```
let lastText = '';
let stableCount = 0;
for (let i = 0; i < 60; i++) {
    await sleep(1000);
    const currentText = await adapter.extractResponse(page);
    if (currentText === lastText && currentText && currentText.length > 0) {
        stableCount++;
        if (stableCount >= 3) break;
    } else { stableCount = 0; lastText = currentText; }
}
```

`extract p` is what `extractResponse` returns at poll `p` (1-based). The loop's
result is the poll at which it broke (if any) together with the final `lastText`;
nothing after the loop reads either, the source re-extracts afresh at line 1096. -/

def stabGo (extract : Nat → Option String) :
    Nat → Nat → Option String → Nat → Option Nat × Option String
  | 0, _, last, _ => (none, last)
  | fuel + 1, p, last, sc =>
    let cur := extract p
    if cur = last ∧ truthy cur = true then
      if 3 ≤ sc + 1 then (some p, last)
      else stabGo extract fuel (p + 1) last (sc + 1)
    else stabGo extract fuel (p + 1) cur 0

def stabilityRun (extract : Nat → Option String) : Option Nat × Option String :=
  stabGo extract 60 1 (some "") 0

/-! ## `LotlController.send` (src/unnamed/part_000 lines 976-1164)

The pipeline after the pre-send snapshot is embedded as a pure function of an
oracle environment describing what every adapter/page read returns:

* `turns0` — `getTurnCount` before submission (line 1009);
* `pext` — `extractResponse` before submission (line 1014, read only for aistudio);
* `turns p`, `busy p` — the completion-wait reads at poll `p`;
* `sext p` — `extractResponse` during the stability loop at poll `p`;
* `fext` — the fresh `extractResponse` after the stability loop (line 1096);
* `fb k` — the result of the `k`-th invocation (0-based) of `extractFallback`
  for this request (`extractFallback` immediately returns `null` for platforms
  other than aistudio, line 754);
* `hint` — the blocked-page probe of lines 1143-1155.

Connection establishment, the blocker pre-check, image upload, `setInput` and
`clickRun` (lines 983-1041) are taken to succeed: the claims under verification
are about the post-submission logic. The upload step for a platform whose adapter
has no `uploadImages` function only logs and continues (lines 1020-1026), so the
`images` argument has no effect on the result for such a platform. -/

structure SendEnv where
  turns0 : Nat
  turns : Nat → Nat
  busy : Nat → Bool
  sext : Nat → Option String
  fext : Option String
  fb : Nat → Option String
  pext : Option String
  hint : Option String

/-- Which platform adapters define `uploadImages` (only the aistudio adapter does;
the chatgpt adapter, lines 539-661, has no upload capability). -/
def adapterHasUploadImages (platform : String) : Bool := platform = "aistudio"

/-- `extractFallback` (lines 753-754) returns `null` immediately for every
platform other than aistudio; for aistudio the `k`-th invocation returns the
oracle value `env.fb k`. -/
def fallbackResult (platform : String) (env : SendEnv) (k : Nat) : Option String :=
  if platform = "aistudio" then env.fb k else none

/-- `/Expand to view model thoughts/i.test(s) || /^Thoughts\b/i.test(s)` (line 1098). -/
def thoughtsLike (s : String) : Bool :=
  containsCi "expand to view model thoughts" s.data ||
  (listStarts "thoughts".data (lowerList s.data) &&
    (match s.data.drop 8 with
     | [] => true
     | c :: _ => !(c.isAlpha || c.isDigit || c = '_')))

/-- Lines 1103-1109: if the response is falsy, trims to empty, or (aistudio)
looks thoughts-only, invoke `extractFallback` and take its result when non-empty.
Returns the (possibly replaced) response and the number of fallback calls made. -/
def emptyFallbackStage (platform : String) (env : SendEnv) (response : Option String) :
    Option String × Nat :=
  let responseStr := jsTrim (orEmpty response)
  if truthy response = false ∨ responseStr = "" ∨
      (platform = "aistudio" ∧ thoughtsLike responseStr = true) then
    let f := fallbackResult platform env 0
    if truthy f = true ∧ ¬jsTrim (orEmpty f) = "" then (f, 1) else (response, 1)
  else (response, 0)

/-- Lines 1111-1124: the staleness check (aistudio only) — when the current
response trims to the non-empty pre-send extraction, force a fallback
re-extraction and take it when non-empty and different. -/
def staleStage (platform : String) (preSendExtract : String) (env : SendEnv)
    (response : Option String) (k : Nat) : Option String × Nat :=
  if platform = "aistudio" then
    let gotNow := jsTrim (orEmpty response)
    if ¬gotNow = "" ∧ ¬preSendExtract = "" ∧ gotNow = preSendExtract then
      let f := fallbackResult platform env k
      let fbs := jsTrim (orEmpty f)
      if ¬fbs = "" ∧ ¬fbs = gotNow then (f, k + 1) else (response, k + 1)
    else (response, k)
  else (response, k)

/-- Lines 1126-1139: exact-token mode (aistudio with a truthy expected token) —
when the trimmed response differs from the token, try the fallback once more; if
it equals or contains the token the response becomes exactly the token, otherwise
the interaction fails with the expectation-mismatch error. -/
def exactTokenStage (platform : String) (expectedExact : Option String) (env : SendEnv)
    (response : Option String) (k : Nat) : Except String (Option String) × Nat :=
  if platform = "aistudio" ∧ truthy expectedExact = true then
    let t := orEmpty expectedExact
    let got := jsTrim (orEmpty response)
    if ¬got = t then
      let f := fallbackResult platform env k
      let fbs := jsTrim (orEmpty f)
      if fbs = t ∨ hasSubCh t.data fbs.data = true then (.ok (some t), k + 1)
      else (.error ("Exact-token mode failed. expected=\"" ++ t ++ "\" got=\"" ++ got ++ "\""), k + 1)
    else (.ok response, k)
  else (.ok response, k)

/-- Lines 1142-1159: when the reply is still empty (aistudio), probe the page for
known blockers and surface that cause as an error; otherwise fall through. -/
def blockerStage (platform : String) (env : SendEnv) (response : Option String) :
    Except String (Option String) :=
  if platform = "aistudio" ∧ jsTrim (orEmpty response) = "" then
    match env.hint with
    | some h => .error ("AI Studio returned an empty reply; likely blocked by: " ++ h ++
        ". Check the AI Studio tab UI.")
    | none => .ok response
  else .ok response

/-- The tail of the validation chain: an error from exact-token mode propagates
unchanged (the JS `throw`); an ok response goes through the blocked-page probe. -/
def finishStage (platform : String) (env : SendEnv) :
    Except String (Option String) → Except String (Option String)
  | .error e => .error e
  | .ok resp => blockerStage platform env resp

/-- The post-extraction validation chain of `send` (lines 1096-1159): the
empty/thoughts fallback, the staleness check, exact-token mode, and the
blocked-page probe, in source order, threading the fallback-invocation count. -/
def postStages (platform : String) (expected : Option String) (pre : String)
    (env : SendEnv) : Except String (Option String) × Nat :=
  let s1 := emptyFallbackStage platform env env.fext
  let s2 := staleStage platform pre env s1.1 s1.2
  let s3 := exactTokenStage platform expected env s2.1 s2.2
  (finishStage platform env s3.1, s3.2)

/-- Instrumented embedding of the body of `LotlController.send` after submission
(src/unnamed/part_000 lines 1008-1162): the interaction's result together with
the number of `extractFallback` invocations it performed. -/
def sendCore (platform prompt : String) (images : List String) (env : SendEnv) :
    Except String (Option String) × Nat :=
  let _ := images
  let turnsBefore := env.turns0
  let preSendExtract : String :=
    if platform = "aistudio" then jsTrim (orEmpty env.pext) else ""
  let expectedExact : Option String :=
    if platform = "aistudio" then parseExpectedExactToken prompt else none
  match completionWait env.turns env.busy turnsBefore (requiredTurnDelta platform) with
  | none => (.error "Timeout waiting for response (3 min)", 0)
  | some _ =>
    let _stab := stabilityRun env.sext
    postStages platform expectedExact preSendExtract env

/-- The result of `LotlController.send` as the caller sees it. -/
def sendModel (platform prompt : String) (images : List String) (env : SendEnv) :
    Except String (Option String) :=
  (sendCore platform prompt images env).1

/-! ## The HTTP routes (src/unnamed/part_000 lines 1263-1344, 1346-1380) -/

inductive RouteResult where
  | ok (status : Nat) (reply : Option String)
  | err (status : Nat) (msg : String)
deriving DecidableEq

/-- `app.post('/chatgpt')` (lines 1303-1344): a non-empty `images` array is
rejected up front with HTTP 400 before the prompt is looked at. -/
def chatgptRoute (prompt : Option String) (images : Option (List String)) (env : SendEnv) :
    RouteResult :=
  if (match images with | some l => !l.isEmpty | none => false) then
    .err 400 "ChatGPT endpoint does not support images in this controller. Use /aistudio for vision inputs."
  else if !truthy prompt then
    .err 400 "Missing prompt"
  else
    match sendModel "chatgpt" (orEmpty prompt) [] env with
    | .ok r => .ok 200 r
    | .error e => .err 500 e

/-- JS `target.toLowerCase()`. -/
def jsToLower (s : String) : String := ⟨lowerList s.data⟩

/-- The legacy-target map of `app.post('/chat')` (lines 1360-1367):
`platformMap[target.toLowerCase()] || 'aistudio'`. -/
def platformMap (target : String) : String :=
  if target = "gemini" then "aistudio"
  else if target = "aistudio" then "aistudio"
  else if target = "chatgpt" then "chatgpt"
  else if target = "gpt" then "chatgpt"
  else "aistudio"

/-- `app.post('/chat')` (lines 1346-1380): no images guard — the images are handed
straight to `controller.send(platform, prompt, images)`. -/
def chatRoute (prompt : Option String) (target : String) (images : Option (List String))
    (env : SendEnv) : RouteResult :=
  if !truthy prompt then
    .err 400 "Missing prompt"
  else
    let platform := platformMap (jsToLower target)
    match sendModel platform (orEmpty prompt) (match images with | some l => l | none => []) env with
    | .ok r => .ok 200 r
    | .error e => .err 500 e

/-! ## Lemmas about the lock chain -/

/-- The timing-relevant fields of a call (issue time, timeout bound, task duration):
everything except the task's result. -/
def callShape (c : LockCall) : Nat × Nat × Nat := (c.callAt, c.timeoutMs, c.task.duration)

/-- The timing skeleton of an observation: task start and task settlement. -/
def LockObs.timing (o : LockObs) : Nat × Nat := (o.start, o.run.time)

theorem withLockStep_run_time (tail : Settled) (c : LockCall) :
    ((withLockStep tail c).1).run.time = max tail.time c.callAt + c.task.duration := rfl

theorem withLockStep_tail_time (tail : Settled) (c : LockCall) :
    ((withLockStep tail c).2).time = max tail.time c.callAt + c.task.duration := rfl

theorem withLockStep_start (tail : Settled) (c : LockCall) :
    ((withLockStep tail c).1).start = max tail.time c.callAt := rfl

theorem lockScheduleGo_start_ge (calls : List LockCall) :
    ∀ (tail : Settled) (i : Nat) (h : i < (lockScheduleGo tail calls).length),
      tail.time ≤ ((lockScheduleGo tail calls).get ⟨i, h⟩).start := by
  induction calls with
  | nil => intro tail i h; simp [lockScheduleGo] at h
  | cons c cs ih =>
    intro tail i h
    cases i with
    | zero =>
      show tail.time ≤ ((withLockStep tail c).1).start
      rw [withLockStep_start]
      exact Nat.le_max_left _ _
    | succ n =>
      have h' : n < (lockScheduleGo (withLockStep tail c).2 cs).length := by
        simpa [lockScheduleGo] using h
      have step : tail.time ≤ ((withLockStep tail c).2).time := by
        rw [withLockStep_tail_time]
        exact le_trans (Nat.le_max_left _ _) (Nat.le_add_right _ _)
      exact le_trans step (ih _ n h')

theorem lockScheduleGo_serial (calls : List LockCall) :
    ∀ (tail : Settled) (i j : Nat) (hij : i < j)
      (hj : j < (lockScheduleGo tail calls).length),
      ((lockScheduleGo tail calls).get ⟨i, Nat.lt_trans hij hj⟩).run.time ≤
        ((lockScheduleGo tail calls).get ⟨j, hj⟩).start := by
  induction calls with
  | nil => intro tail i j hij hj; simp [lockScheduleGo] at hj
  | cons c cs ih =>
    intro tail i j hij hj
    cases j with
    | zero => omega
    | succ m =>
      have hm : m < (lockScheduleGo (withLockStep tail c).2 cs).length := by
        simpa [lockScheduleGo] using hj
      cases i with
      | zero =>
        show ((withLockStep tail c).1).run.time ≤ _
        have hrt : ((withLockStep tail c).1).run.time = ((withLockStep tail c).2).time := rfl
        rw [hrt]
        exact lockScheduleGo_start_ge cs _ m hm
      | succ n => exact ih _ n m (by omega) hm

theorem lockScheduleGo_timing_congr :
    ∀ (calls calls' : List LockCall) (tail tail' : Settled),
      calls.map callShape = calls'.map callShape → tail.time = tail'.time →
      (lockScheduleGo tail calls).map LockObs.timing =
        (lockScheduleGo tail' calls').map LockObs.timing := by
  intro calls
  induction calls with
  | nil =>
    intro calls' tail tail' hsh _
    cases calls' with
    | nil => rfl
    | cons c' cs' => simp at hsh
  | cons c cs ih =>
    intro calls' tail tail' hsh htime
    cases calls' with
    | nil => simp at hsh
    | cons c' cs' =>
      simp only [List.map_cons, List.cons.injEq] at hsh
      obtain ⟨hc, hcs⟩ := hsh
      have hca : c.callAt = c'.callAt := congrArg (fun x => x.1) hc
      have hto : c.timeoutMs = c'.timeoutMs := congrArg (fun x => x.2.1) hc
      have hdu : c.task.duration = c'.task.duration := congrArg (fun x => x.2.2) hc
      have hstart : max tail.time c.callAt = max tail'.time c'.callAt := by
        rw [htime, hca]
      have htiming : LockObs.timing (withLockStep tail c).1 =
          LockObs.timing (withLockStep tail' c').1 := by
        show (max tail.time c.callAt, max tail.time c.callAt + c.task.duration) =
          (max tail'.time c'.callAt, max tail'.time c'.callAt + c'.task.duration)
        rw [hstart, hdu]
      have htail : ((withLockStep tail c).2).time = ((withLockStep tail' c').2).time := by
        rw [withLockStep_tail_time, withLockStep_tail_time, hstart, hdu]
      simp only [lockScheduleGo, List.map_cons]
      rw [htiming, ih cs' _ _ hcs htail]

/-! ## Lemmas about the completion-wait loop -/

theorem completionGo_eq_some (turns : Nat → Nat) (busy : Nat → Bool) (target : Nat) :
    ∀ (fuel p q : Nat), completionGo turns busy target fuel p = some q →
      p ≤ q ∧ q < p + fuel ∧ doneCond turns busy target q ∧
      ∀ j, p ≤ j → j < q → ¬doneCond turns busy target j := by
  intro fuel
  induction fuel with
  | zero => intro p q h; cases h
  | succ n ih =>
    intro p q h
    rw [completionGo] at h
    split at h
    · cases h
      exact ⟨Nat.le_refl _, by omega, ‹_›, fun j hj1 hj2 => absurd hj1 (by omega)⟩
    · obtain ⟨h1, h2, h3, h4⟩ := ih (p + 1) q h
      refine ⟨by omega, by omega, h3, ?_⟩
      intro j hj1 hj2
      rcases Nat.eq_or_lt_of_le hj1 with rfl | hlt
      · assumption
      · exact h4 j (by omega) hj2

theorem completionGo_eq_none (turns : Nat → Nat) (busy : Nat → Bool) (target : Nat) :
    ∀ (fuel p : Nat), completionGo turns busy target fuel p = none →
      ∀ j, p ≤ j → j < p + fuel → ¬doneCond turns busy target j := by
  intro fuel
  induction fuel with
  | zero => intro p _ j hj1 hj2; omega
  | succ n ih =>
    intro p h j hj1 hj2
    rw [completionGo] at h
    split at h
    · cases h
    · rcases Nat.eq_or_lt_of_le hj1 with rfl | hlt
      · assumption
      · exact ih (p + 1) h j (by omega) (by omega)

theorem completionGo_ne_none (turns : Nat → Nat) (busy : Nat → Bool) (target : Nat)
    (fuel p j : Nat) (hj1 : p ≤ j) (hj2 : j < p + fuel)
    (hdone : doneCond turns busy target j) :
    completionGo turns busy target fuel p ≠ none := by
  intro h
  exact completionGo_eq_none turns busy target fuel p h j hj1 hj2 hdone

/-- Full characterisation of the completion-wait loop: it reports poll `q` exactly
when `q` is the first of the 180 polls satisfying the exit condition. -/
theorem completionWait_eq_some_iff (turns : Nat → Nat) (busy : Nat → Bool)
    (turnsBefore delta q : Nat) :
    completionWait turns busy turnsBefore delta = some q ↔
      (1 ≤ q ∧ q ≤ 180 ∧ doneCond turns busy (turnsBefore + delta) q ∧
        ∀ j, 1 ≤ j → j < q → ¬doneCond turns busy (turnsBefore + delta) j) := by
  constructor
  · intro h
    obtain ⟨h1, h2, h3, h4⟩ := completionGo_eq_some turns busy _ 180 1 q h
    exact ⟨h1, by omega, h3, fun j hj1 hj2 => h4 j hj1 hj2⟩
  · rintro ⟨h1, h2, h3, h4⟩
    cases hres : completionWait turns busy turnsBefore delta with
    | none =>
      exact absurd hres
        (completionGo_ne_none turns busy _ 180 1 q h1 (by omega) h3)
    | some q' =>
      obtain ⟨g1, g2, g3, g4⟩ := completionGo_eq_some turns busy _ 180 1 q' hres
      rcases Nat.lt_trichotomy q' q with hlt | heq | hgt
      · exact absurd g3 (h4 q' g1 hlt)
      · rw [heq]
      · exact absurd h3 (g4 q h1 hgt)

/-! ## Claim C1 -/

/-- **C1.** For any two requests issued concurrently against the same platform key,
their effects on the shared browser tab never interleave: in any arrival-ordered
sequence of `withLock` calls for one key, the `j`-th task begins execution no
earlier than the settlement of every earlier task (first conjunct), and the whole
start/settlement schedule is unchanged when any task's results are replaced —
so a prior task's failure, or a timeout already reported to its caller, neither
lets tasks overlap nor prevents later queued tasks from running (second
conjunct). -/
theorem c1_requests_never_interleave (calls calls' : List LockCall) (i j : Nat)
    (hij : i < j) (hj : j < (lockSchedule calls).length)
    (hshape : calls.map callShape = calls'.map callShape) :
    ((lockSchedule calls).get ⟨i, Nat.lt_trans hij hj⟩).run.time ≤
      ((lockSchedule calls).get ⟨j, hj⟩).start ∧
    (lockSchedule calls).map LockObs.timing = (lockSchedule calls').map LockObs.timing :=
  ⟨lockScheduleGo_serial calls initialTail i j hij hj,
   lockScheduleGo_timing_congr calls calls' initialTail initialTail hshape rfl⟩

/-- The spec scenario for C1: R1 holds the lock with a 420000 ms timeout and a
task that runs 500000 ms and fails; R2 arrives 10 ms later for the same key. -/
def c1Calls : List LockCall :=
  [⟨0, 420000, ⟨500000, .rejected "task failed"⟩⟩,
   ⟨10, 420000, ⟨1000, .fulfilled "ok"⟩⟩]

/-- The same scenario with R1 succeeding instead of failing. -/
def c1CallsAlt : List LockCall :=
  [⟨0, 420000, ⟨500000, .fulfilled "late success"⟩⟩,
   ⟨10, 420000, ⟨1000, .fulfilled "ok"⟩⟩]

theorem c1_requests_never_interleave_witness :
    ((lockSchedule c1Calls).get ⟨0, by decide⟩).run.time ≤
      ((lockSchedule c1Calls).get ⟨1, by decide⟩).start ∧
    (lockSchedule c1Calls).map LockObs.timing =
      (lockSchedule c1CallsAlt).map LockObs.timing :=
  c1_requests_never_interleave c1Calls c1CallsAlt 0 1 (by decide) (by decide) (by decide)

/-! ## Claim C6 -/

/-- **C6.** When the lock timeout fires before the chained task completes, the
caller's promise rejects with the lock-timeout failure at exactly
`callAt + timeoutMs` (the task's result is discarded for that caller), yet the
task itself is not cancelled: the stored queue tail settles at the task's own
settlement time, so any next queued call starts no earlier than the task's true
completion. -/
theorem c6_lock_timeout_reports_but_does_not_cancel (tail : Settled) (c : LockCall)
    (h : c.callAt + c.timeoutMs < ((withLockStep tail c).1).run.time) :
    ((withLockStep tail c).1).caller =
      ⟨c.callAt + c.timeoutMs, .rejected (lockTimeoutMsg c.timeoutMs)⟩ ∧
    ((withLockStep tail c).2).time = ((withLockStep tail c).1).run.time ∧
    ∀ c₂ : LockCall, ((withLockStep tail c).1).run.time ≤
      ((withLockStep (withLockStep tail c).2 c₂).1).start := by
  refine ⟨?_, rfl, ?_⟩
  · have h' : ¬(max tail.time c.callAt + c.task.duration ≤ c.callAt + c.timeoutMs) := by
      rw [withLockStep_run_time] at h
      omega
    simp only [withLockStep]
    rw [if_neg h']
  · intro c₂
    rw [withLockStep_start, withLockStep_run_time, withLockStep_tail_time]
    exact Nat.le_max_left _ _

/-- R1 of the spec scenario: lock timeout 420000 ms, task runs 500000 ms and fails. -/
def c6Call : LockCall := ⟨0, 420000, ⟨500000, .rejected "task failed"⟩⟩

theorem c6_lock_timeout_witness :
    ((withLockStep initialTail c6Call).1).caller =
      ⟨c6Call.callAt + c6Call.timeoutMs, .rejected (lockTimeoutMsg c6Call.timeoutMs)⟩ ∧
    ((withLockStep initialTail c6Call).2).time =
      ((withLockStep initialTail c6Call).1).run.time ∧
    ∀ c₂ : LockCall, ((withLockStep initialTail c6Call).1).run.time ≤
      ((withLockStep (withLockStep initialTail c6Call).2 c₂).1).start :=
  c6_lock_timeout_reports_but_does_not_cancel initialTail c6Call (by decide)

/-! ## Claim C2 -/

/-- The spec scenario for C2: the turn count reaches 6 and the busy flag first
becomes false at poll 8. -/
def c2Turns : Nat → Nat := fun _ => 6

def c2Busy : Nat → Bool := fun p => decide (p < 8)

/-- **C2.** `requiredDelta` is 2 for aistudio and 1 for chatgpt; the
completion-wait loop declares the response started exactly on the first of its
180 polls at which the turn count is at least `turnsBefore + delta` and the
busy/generating flag is false; in particular it never declares completion at a
poll where the busy flag is true; and in the scenario `turnsBefore = 4`,
`delta = 2`, turn count already 6, busy until poll 8, it settles at poll 8 and
not earlier. -/
theorem c2_completion_first_satisfying_poll :
    (requiredTurnDelta "aistudio" = 2 ∧ requiredTurnDelta "chatgpt" = 1) ∧
    (∀ (turns : Nat → Nat) (busy : Nat → Bool) (turnsBefore delta q : Nat),
      completionWait turns busy turnsBefore delta = some q ↔
        (1 ≤ q ∧ q ≤ 180 ∧ doneCond turns busy (turnsBefore + delta) q ∧
          ∀ j, 1 ≤ j → j < q → ¬doneCond turns busy (turnsBefore + delta) j)) ∧
    (∀ (turns : Nat → Nat) (busy : Nat → Bool) (turnsBefore delta q : Nat),
      completionWait turns busy turnsBefore delta = some q → busy q = false) ∧
    completionWait c2Turns c2Busy 4 2 = some 8 := by
  refine ⟨⟨rfl, rfl⟩, ?_, ?_, by decide⟩
  · intro turns busy turnsBefore delta q
    exact completionWait_eq_some_iff turns busy turnsBefore delta q
  · intro turns busy turnsBefore delta q h
    exact (((completionWait_eq_some_iff turns busy turnsBefore delta q).mp h).2.2.1).2

theorem c2_completion_witness : c2Busy 8 = false :=
  c2_completion_first_satisfying_poll.2.2.1 c2Turns c2Busy 4 2 8 (by decide)

/-! ## Claim C7 -/

/-- **C7.** If the turn-count-plus-not-generating condition is never satisfied
within the 180 one-second polls, `send` fails with the response-timeout error
rather than returning any reply. -/
theorem c7_response_timeout (platform prompt : String) (images : List String)
    (env : SendEnv)
    (h : ∀ j, 1 ≤ j → j ≤ 180 →
      ¬doneCond env.turns env.busy (env.turns0 + requiredTurnDelta platform) j) :
    sendModel platform prompt images env = .error "Timeout waiting for response (3 min)" := by
  have hn : completionWait env.turns env.busy env.turns0 (requiredTurnDelta platform) = none := by
    cases hres : completionWait env.turns env.busy env.turns0 (requiredTurnDelta platform) with
    | none => rfl
    | some q =>
      obtain ⟨h1, h2, h3, _⟩ := completionGo_eq_some env.turns env.busy _ 180 1 q hres
      exact absurd h3 (h q h1 (by omega))
  simp [sendModel, sendCore, hn]

/-- An environment in which the busy flag never clears. -/
def c7Env : SendEnv :=
  { turns0 := 0, turns := fun _ => 99, busy := fun _ => true,
    sext := fun _ => none, fext := none, fb := fun _ => none, pext := none, hint := none }

theorem c7_response_timeout_witness :
    sendModel "aistudio" "hi" [] c7Env = .error "Timeout waiting for response (3 min)" :=
  c7_response_timeout "aistudio" "hi" [] c7Env
    (fun j _ _ hd => by simp [c7Env, doneCond] at hd)

/-! ## Claim C9 -/

/-- A benign environment: one new turn appears immediately, the busy flag is
clear, and extraction returns a fixed reply. -/
def c9Env : SendEnv :=
  { turns0 := 0, turns := fun _ => 1, busy := fun _ => false,
    sext := fun _ => some "a text reply", fext := some "a text reply",
    fb := fun _ => none, pext := none, hint := none }

/-- **C9, counterexample.** The claim says every image-bearing request for the
chatgpt platform (whose adapter has no upload capability) is rejected with an
explicit error rather than processed with the images ignored. It is false:
through the legacy `/chat` endpoint with target `chatgpt`, an image-bearing
request is processed normally and succeeds — `/chat` has no images guard and
`send` merely logs and continues when the adapter lacks `uploadImages`
(lines 1020-1026, 1346-1380). -/
theorem c9_counterexample :
    chatRoute (some "hi") "chatgpt" (some ["data:image/png;base64,AAAA"]) c9Env =
      .ok 200 (some "a text reply") := by decide

/-- **C9, amended.** Only the dedicated `/chatgpt` endpoint rejects a request
carrying a non-empty images array, with an explicit 400 error issued before the
prompt is even examined; for the chatgpt platform itself, `send` silently ignores
the images — its outcome is identical with and without them. -/
theorem c9_chatgpt_images_handling (images : List String) (env : SendEnv)
    (himg : images ≠ []) :
    (∀ prompt : Option String, chatgptRoute prompt (some images) env =
      .err 400 "ChatGPT endpoint does not support images in this controller. Use /aistudio for vision inputs.") ∧
    (∀ p : String, sendModel "chatgpt" p images env = sendModel "chatgpt" p [] env) := by
  constructor
  · intro prompt
    have hne : (!images.isEmpty) = true := by
      cases images with
      | nil => exact absurd rfl himg
      | cons a l => rfl
    simp [chatgptRoute, hne]
  · intro p
    rfl

theorem c9_chatgpt_images_handling_witness :
    (∀ prompt : Option String,
      chatgptRoute prompt (some ["data:image/png;base64,AAAA"]) c9Env =
        .err 400 "ChatGPT endpoint does not support images in this controller. Use /aistudio for vision inputs.") ∧
    (∀ p : String, sendModel "chatgpt" p ["data:image/png;base64,AAAA"] c9Env =
      sendModel "chatgpt" p [] c9Env) :=
  c9_chatgpt_images_handling ["data:image/png;base64,AAAA"] c9Env (by decide)

/-! ## Claim C5: lemmas about the stability loop -/

/-- Poll `p` "matched": its sample equals the previous poll's sample and is a
non-empty string (the loop's `currentText === lastText && currentText &&
currentText.length > 0`, given that `lastText` always holds the previous sample). -/
def samplesMatch (extract : Nat → Option String) (p : Nat) : Prop :=
  extract p = extract (p - 1) ∧ truthy (extract p) = true

/-- Three consecutive matching polls ending at `p` — the loop's break condition,
first reachable at `p = 4` (`stableCount` must climb 1, 2, 3 on matching polls). -/
def stableWindow (extract : Nat → Option String) (p : Nat) : Prop :=
  4 ≤ p ∧ samplesMatch extract p ∧ samplesMatch extract (p - 1) ∧
    samplesMatch extract (p - 2)

theorem stabGo_spec (extract : Nat → Option String) :
    ∀ (fuel p : Nat) (last : Option String) (sc : Nat),
      2 ≤ p → last = extract (p - 1) → sc ≤ 2 → 2 ≤ p - sc →
      (∀ k, p - sc ≤ k → k < p → samplesMatch extract k) →
      (2 ≤ p - sc - 1 → ¬samplesMatch extract (p - sc - 1)) →
      (∀ q, q < p → ¬stableWindow extract q) →
      (∀ r, (stabGo extract fuel p last sc).1 = some r →
        p ≤ r ∧ r < p + fuel ∧ stableWindow extract r ∧
          ∀ q, q < r → ¬stableWindow extract q) ∧
      ((stabGo extract fuel p last sc).1 = none →
        ∀ q, q < p + fuel → ¬stableWindow extract q) := by
  intro fuel
  induction fuel with
  | zero =>
    intro p last sc hp hlast hsc hps hrun hbound hnw
    constructor
    · intro r h; cases h
    · intro _ q hq
      exact hnw q (by omega)
  | succ n ih =>
    intro p last sc hp hlast hsc hps hrun hbound hnw
    simp only [stabGo]
    by_cases hcond : (extract p = last ∧ truthy (extract p) = true)
    · have hMp : samplesMatch extract p := ⟨by rw [hcond.1, hlast], hcond.2⟩
      rw [if_pos hcond]
      by_cases hsc3 : 3 ≤ sc + 1
      · -- the loop breaks at poll p
        have hsc2 : sc = 2 := by omega
        have hp4 : 4 ≤ p := by omega
        have hwin : stableWindow extract p := by
          refine ⟨hp4, hMp, ?_, ?_⟩
          · exact hrun (p - 1) (by omega) (by omega)
          · exact hrun (p - 2) (by omega) (by omega)
        rw [if_pos hsc3]
        constructor
        · intro r h
          simp only at h
          cases h
          exact ⟨Nat.le_refl _, by omega, hwin, hnw⟩
        · intro h
          simp at h
      · -- matching poll, counter not yet at 3: continue
        rw [if_neg hsc3]
        have hscle : sc ≤ 1 := by omega
        have hlast' : last = extract (p + 1 - 1) := by
          simpa using hcond.1.symm
        have hrun' : ∀ k, p + 1 - (sc + 1) ≤ k → k < p + 1 → samplesMatch extract k := by
          intro k hk1 hk2
          rcases Nat.lt_or_ge k p with hk | hk
          · exact hrun k (by omega) hk
          · have : k = p := by omega
            rw [this]; exact hMp
        have hbound' : 2 ≤ p + 1 - (sc + 1) - 1 →
            ¬samplesMatch extract (p + 1 - (sc + 1) - 1) := by
          intro hge
          have e : p + 1 - (sc + 1) - 1 = p - sc - 1 := by omega
          rw [e]
          exact hbound (by omega)
        have hnw' : ∀ q, q < p + 1 → ¬stableWindow extract q := by
          intro q hq
          rcases Nat.lt_or_ge q p with hq' | hq'
          · exact hnw q hq'
          · have hqp : q = p := by omega
            rw [hqp]
            intro hw
            have hp4 : 4 ≤ p := hw.1
            rcases Nat.le_one_iff_eq_zero_or_eq_one.mp hscle with h0 | h1
            · exact hbound (by omega) (by
                have e : p - sc - 1 = p - 1 := by omega
                rw [e]
                exact hw.2.2.1)
            · exact hbound (by omega) (by
                have e : p - sc - 1 = p - 2 := by omega
                rw [e]
                exact hw.2.2.2)
        obtain ⟨ihs, ihn⟩ := ih (p + 1) last (sc + 1) (by omega) hlast' (by omega)
          (by omega) hrun' hbound' hnw'
        constructor
        · intro r h
          obtain ⟨g1, g2, g3, g4⟩ := ihs r h
          exact ⟨by omega, by omega, g3, g4⟩
        · intro h q hq
          exact ihn h q (by omega)
    · -- non-matching poll: reset
      rw [if_neg hcond]
      have hnotM : ¬samplesMatch extract p := by
        intro hM
        exact hcond ⟨by rw [hM.1, hlast], hM.2⟩
      have hrun' : ∀ k, p + 1 - 0 ≤ k → k < p + 1 → samplesMatch extract k := by
        intro k hk1 hk2; omega
      have hbound' : 2 ≤ p + 1 - 0 - 1 → ¬samplesMatch extract (p + 1 - 0 - 1) := by
        intro _
        simpa using hnotM
      have hnw' : ∀ q, q < p + 1 → ¬stableWindow extract q := by
        intro q hq
        rcases Nat.lt_or_ge q p with hq' | hq'
        · exact hnw q hq'
        · have : q = p := by omega
          subst this
          intro hw
          exact hnotM hw.2.1
      obtain ⟨ihs, ihn⟩ := ih (p + 1) (extract p) 0 (by omega) (by simp) (by omega)
        (by omega) hrun' hbound' hnw'
      constructor
      · intro r h
        obtain ⟨g1, g2, g3, g4⟩ := ihs r h
        exact ⟨by omega, by omega, g3, g4⟩
      · intro h q hq
        exact ihn h q (by omega)

/-- The first poll of the stability loop can never break (its `lastText` starts
as `''`, which is falsy), so the loop always proceeds to poll 2 carrying
`lastText = extract 1`. -/
theorem stabilityRun_unfold (extract : Nat → Option String) :
    stabilityRun extract = stabGo extract 59 2 (extract 1) 0 := by
  show stabGo extract (59 + 1) 1 (some "") 0 = _
  rw [stabGo]
  have hnot : ¬(extract 1 = some "" ∧ truthy (extract 1) = true) := by
    rintro ⟨h1, h2⟩
    rw [h1] at h2
    simp [truthy] at h2
  rw [if_neg hnot]

theorem stabilityRun_eq_some (extract : Nat → Option String) (r : Nat)
    (h : (stabilityRun extract).1 = some r) :
    r ≤ 60 ∧ stableWindow extract r ∧ ∀ q, q < r → ¬stableWindow extract q := by
  rw [stabilityRun_unfold] at h
  have hspec := stabGo_spec extract 59 2 (extract 1) 0 (by omega) rfl (by omega) (by omega)
    (fun k hk1 hk2 => by omega)
    (fun hge => by omega)
    (fun q hq hw => by have := hw.1; omega)
  obtain ⟨g1, g2, g3, g4⟩ := hspec.1 r h
  exact ⟨by omega, g3, g4⟩

theorem stabilityRun_completes (extract : Nat → Option String) (q : Nat)
    (hq : q ≤ 60) (hw : stableWindow extract q) :
    ∃ r, (stabilityRun extract).1 = some r ∧ r ≤ q := by
  have hspec := stabGo_spec extract 59 2 (extract 1) 0 (by omega) rfl (by omega) (by omega)
    (fun k hk1 hk2 => by omega)
    (fun hge => by omega)
    (fun q' hq' hw' => by have := hw'.1; omega)
  cases hres : (stabilityRun extract).1 with
  | none =>
    rw [stabilityRun_unfold] at hres
    exact absurd hw (hspec.2 hres q (by omega))
  | some r =>
    refine ⟨r, rfl, ?_⟩
    have hchar := stabilityRun_eq_some extract r hres
    by_contra hgt
    exact hchar.2.2 q (by omega) hw

/-- The spec scenario for C5: extraction returns "Hello" at polls 1-2 and
"Hello there" from poll 3 on. -/
def c5Extract : Nat → Option String :=
  fun p => if p ≤ 2 then some "Hello" else some "Hello there"

/-- **C5.** The streaming-stability wait breaks at poll `r` exactly when `r` is
the first poll ending three consecutive polls whose extracted text equals the
previous sample and is non-empty (so four identical consecutive samples, matching
the claim's scenario); in the scenario "Hello" at polls 1-2 then "Hello there"
from poll 3, it settles at poll 6 holding final text "Hello there"; and when no
such run occurs within the 60-poll ceiling, the interaction does not fail — the
stability samples have no effect at all on `send`'s outcome, which proceeds with
the subsequently extracted text. -/
theorem c5_stability_detector :
    (∀ (extract : Nat → Option String) (r : Nat), (stabilityRun extract).1 = some r →
      r ≤ 60 ∧ stableWindow extract r ∧ ∀ q, q < r → ¬stableWindow extract q) ∧
    (∀ (extract : Nat → Option String) (q : Nat), q ≤ 60 → stableWindow extract q →
      ∃ r, (stabilityRun extract).1 = some r ∧ r ≤ q) ∧
    stabilityRun c5Extract = (some 6, some "Hello there") ∧
    (∀ (platform prompt : String) (images : List String) (env : SendEnv)
      (sx : Nat → Option String),
      sendModel platform prompt images { env with sext := sx } =
        sendModel platform prompt images env) :=
  ⟨stabilityRun_eq_some, fun extract q hq hw => stabilityRun_completes extract q hq hw,
   by decide, fun _ _ _ _ _ => rfl⟩

theorem c5_stability_detector_witness :
    6 ≤ 60 ∧ stableWindow c5Extract 6 ∧ ∀ q, q < 6 → ¬stableWindow c5Extract q :=
  c5_stability_detector.1 c5Extract 6 (by decide)

/-! ## String lemmas shared by the extraction claims -/

theorem listStarts_self : ∀ l : List Char, listStarts l l = true := by
  intro l
  induction l with
  | nil => rfl
  | cons c cs ih => simp [listStarts, ih]

theorem hasSubCh_self (l : List Char) : hasSubCh l l = true := by
  cases l with
  | nil => rfl
  | cons c cs => simp [hasSubCh, listStarts_self]

theorem ne_of_not_hasSubCh {t s : String}
    (h : hasSubCh t.data s.data = false) : ¬s = t := by
  intro he
  rw [he, hasSubCh_self t.data] at h
  cases h

theorem dropWhile_idem (p : Char → Bool) (l : List Char) :
    (l.dropWhile p).dropWhile p = l.dropWhile p := by
  induction l with
  | nil => rfl
  | cons a l ih =>
    by_cases h : p a
    · simp [List.dropWhile_cons, h, ih]
    · simp [List.dropWhile_cons, h]

theorem dropWhile_head_false (p : Char → Bool) :
    ∀ (l : List Char) {c r}, l.dropWhile p = c :: r → p c = false := by
  intro l
  induction l with
  | nil => intro c r h; cases h
  | cons a l ih =>
    intro c r h
    by_cases ha : p a
    · rw [List.dropWhile_cons_of_pos ha] at h
      exact ih h
    · rw [List.dropWhile_cons_of_neg ha] at h
      cases h
      simpa using ha

theorem dropWhile_append_last (p : Char → Bool) {c : Char} (hc : p c = false) :
    ∀ xs : List Char, (xs ++ [c]).dropWhile p = xs.dropWhile p ++ [c] := by
  intro xs
  induction xs with
  | nil => simp [List.dropWhile, hc]
  | cons a l ih =>
    by_cases ha : p a
    · simp [List.dropWhile_cons, ha, ih]
    · simp [List.dropWhile_cons, ha]

theorem trimChars_idem (l : List Char) : trimChars (trimChars l) = trimChars l := by
  unfold trimChars
  cases ha : l.dropWhile jsWhitespace with
  | nil => simp
  | cons c a' =>
    have hc : jsWhitespace c = false := dropWhile_head_false jsWhitespace l ha
    have hb : ((c :: a').reverse.dropWhile jsWhitespace).reverse.dropWhile jsWhitespace =
        ((c :: a').reverse.dropWhile jsWhitespace).reverse := by
      rw [List.reverse_cons]
      rw [dropWhile_append_last jsWhitespace hc a'.reverse]
      rw [List.reverse_append]
      simp [List.dropWhile_cons, hc]
    rw [hb]
    rw [List.reverse_reverse]
    rw [dropWhile_idem]

/-- The trimmed trailing part: `trimChars` fixes its own output (string form). -/
theorem jsTrim_idem (s : String) : jsTrim (jsTrim s) = jsTrim s := by
  simp [jsTrim, trimChars_idem]

theorem captureAfterColon_trimmed {r tok : List Char}
    (h : captureAfterColon r = some tok) : trimChars tok = tok := by
  unfold captureAfterColon at h
  cases hrem : r.dropWhile jsWhitespace with
  | nil =>
    simp only [hrem] at h
    split at h
    · cases h; rfl
    · cases h
  | cons c rem' =>
    simp only [hrem] at h
    cases h
    exact trimChars_idem _

theorem matchExactAt_trimmed : ∀ {l tok : List Char},
    matchExactAt l = some tok → trimChars tok = tok := by
  intro l tok h
  unfold matchExactAt at h
  cases h1 : matchLitCi "reply".data l with
  | none => rw [h1] at h; cases h
  | some r1 =>
    rw [h1] at h
    simp only [Option.bind] at h
    cases h2 : matchWsPlus r1 with
    | none => rw [h2] at h; cases h
    | some r2 =>
      rw [h2] at h
      simp only [Option.bind] at h
      cases h3 : matchLitCi "with".data r2 with
      | none => rw [h3] at h; cases h
      | some r3 =>
        rw [h3] at h
        simp only [Option.bind] at h
        cases h4 : matchWsPlus r3 with
        | none => rw [h4] at h; cases h
        | some r4 =>
          rw [h4] at h
          simp only [Option.bind] at h
          cases h5 : matchLitCi "exactly:".data r4 with
          | none => rw [h5] at h; cases h
          | some r5 =>
            rw [h5] at h
            simp only [Option.bind] at h
            exact captureAfterColon_trimmed h

theorem parseTokenCh_trimmed : ∀ {l tok : List Char},
    parseTokenCh l = some tok → trimChars tok = tok := by
  intro l
  induction l with
  | nil => intro tok h; cases h
  | cons c rest ih =>
    intro tok h
    rw [parseTokenCh] at h
    cases hm : matchExactAt (c :: rest) with
    | none => rw [hm] at h; exact ih h
    | some t =>
      rw [hm] at h
      cases h
      exact matchExactAt_trimmed hm

/-- The token produced by `parseExpectedExactToken` is already trimmed. -/
theorem parseExpectedExactToken_trimmed {prompt t : String}
    (h : parseExpectedExactToken prompt = some t) : jsTrim t = t := by
  unfold parseExpectedExactToken at h
  cases hp : parseTokenCh prompt.data with
  | none => rw [hp] at h; cases h
  | some tok =>
    rw [hp] at h
    cases h
    simp [jsTrim, parseTokenCh_trimmed hp]

/-! ## Stage lemmas for `send`'s validation chain -/

theorem emptyFallbackStage_skip (platform : String) (env : SendEnv) (r : Option String)
    (h1 : ¬jsTrim (orEmpty r) = "")
    (h2 : thoughtsLike (jsTrim (orEmpty r)) = false) :
    emptyFallbackStage platform env r = (r, 0) := by
  have htr : truthy r = true := by
    cases r with
    | none => exact absurd rfl h1
    | some s =>
      by_cases hs : s = ""
      · subst hs; exact absurd rfl h1
      · simp [truthy, hs]
  simp only [emptyFallbackStage]
  rw [if_neg]
  rintro (h | h | h)
  · rw [htr] at h; cases h
  · exact h1 h
  · exact absurd h.2 (by simp [h2])

theorem emptyFallbackStage_mem (platform : String) (env : SendEnv) (r : Option String) :
    (emptyFallbackStage platform env r).1 = r ∨
      (emptyFallbackStage platform env r).1 = fallbackResult platform env 0 := by
  simp only [emptyFallbackStage]
  split
  · split
    · exact Or.inr rfl
    · exact Or.inl rfl
  · exact Or.inl rfl

theorem emptyFallbackStage_count_le (platform : String) (env : SendEnv) (r : Option String) :
    (emptyFallbackStage platform env r).2 ≤ 1 := by
  simp only [emptyFallbackStage]
  split
  · split
    · exact Nat.le_refl _
    · exact Nat.le_refl _
  · exact Nat.zero_le _

theorem emptyFallbackStage_count_of_cond (platform : String) (env : SendEnv)
    (r : Option String)
    (hcond : truthy r = false ∨ jsTrim (orEmpty r) = "" ∨
      (platform = "aistudio" ∧ thoughtsLike (jsTrim (orEmpty r)) = true)) :
    (emptyFallbackStage platform env r).2 = 1 := by
  simp only [emptyFallbackStage]
  rw [if_pos hcond]
  split
  · rfl
  · rfl

theorem staleStage_mem (platform : String) (pre : String) (env : SendEnv)
    (r : Option String) (k : Nat) :
    (staleStage platform pre env r k).1 = r ∨
      ∃ j, (staleStage platform pre env r k).1 = fallbackResult platform env j := by
  simp only [staleStage]
  split
  · split
    · split
      · exact Or.inr ⟨k, rfl⟩
      · exact Or.inl rfl
    · exact Or.inl rfl
  · exact Or.inl rfl

theorem staleStage_count_ge (platform : String) (pre : String) (env : SendEnv)
    (r : Option String) (k : Nat) :
    k ≤ (staleStage platform pre env r k).2 := by
  simp only [staleStage]
  split
  · split
    · split
      · exact Nat.le_succ _
      · exact Nat.le_succ _
    · exact Nat.le_refl _
  · exact Nat.le_refl _

theorem staleStage_skip_of_ne (pre : String) (env : SendEnv) (r : Option String) (k : Nat)
    (h : ¬jsTrim (orEmpty r) = pre) :
    staleStage "aistudio" pre env r k = (r, k) := by
  unfold staleStage
  rw [if_pos rfl]
  rw [if_neg (by rintro ⟨_, _, hh⟩; exact h hh)]

theorem staleStage_count_of_cond (pre : String) (env : SendEnv) (r : Option String) (k : Nat)
    (h1 : ¬jsTrim (orEmpty r) = "") (h2 : ¬pre = "") (h3 : jsTrim (orEmpty r) = pre) :
    (staleStage "aistudio" pre env r k).2 = k + 1 := by
  unfold staleStage
  rw [if_pos rfl]
  rw [if_pos ⟨h1, h2, h3⟩]
  show (if ¬jsTrim (orEmpty (fallbackResult "aistudio" env k)) = "" ∧
        ¬jsTrim (orEmpty (fallbackResult "aistudio" env k)) = jsTrim (orEmpty r)
      then (fallbackResult "aistudio" env k, k + 1) else (r, k + 1)).2 = k + 1
  split
  · rfl
  · rfl

theorem staleStage_fallback (pre : String) (env : SendEnv) (r : Option String) (k : Nat)
    (h1 : ¬jsTrim (orEmpty r) = "") (h2 : ¬pre = "") (h3 : jsTrim (orEmpty r) = pre)
    (h4 : ¬jsTrim (orEmpty (fallbackResult "aistudio" env k)) = "")
    (h5 : ¬jsTrim (orEmpty (fallbackResult "aistudio" env k)) = jsTrim (orEmpty r)) :
    staleStage "aistudio" pre env r k = (fallbackResult "aistudio" env k, k + 1) := by
  unfold staleStage
  rw [if_pos rfl]
  rw [if_pos ⟨h1, h2, h3⟩]
  rw [if_pos ⟨h4, h5⟩]

theorem exactTokenStage_skip_of_inactive (platform : String) (expected : Option String)
    (env : SendEnv) (r : Option String) (k : Nat) (h : truthy expected = false) :
    exactTokenStage platform expected env r k = (.ok r, k) := by
  simp only [exactTokenStage]
  rw [if_neg (by rintro ⟨_, hh⟩; rw [h] at hh; cases hh)]

theorem exactTokenStage_count_ge (platform : String) (expected : Option String)
    (env : SendEnv) (r : Option String) (k : Nat) :
    k ≤ (exactTokenStage platform expected env r k).2 := by
  simp only [exactTokenStage]
  split
  · split
    · split
      · exact Nat.le_succ _
      · exact Nat.le_succ _
    · exact Nat.le_refl _
  · exact Nat.le_refl _

theorem exactTokenStage_error (t : String) (env : SendEnv) (r : Option String) (k : Nat)
    (ht : ¬t = "")
    (hgot : hasSubCh t.data (jsTrim (orEmpty r)).data = false)
    (hfb : hasSubCh t.data (jsTrim (orEmpty (fallbackResult "aistudio" env k))).data = false) :
    exactTokenStage "aistudio" (some t) env r k =
      (.error ("Exact-token mode failed. expected=\"" ++ t ++ "\" got=\"" ++
        jsTrim (orEmpty r) ++ "\""), k + 1) := by
  have htr : truthy (some t) = true := by simp [truthy, ht]
  unfold exactTokenStage
  rw [if_pos ⟨rfl, htr⟩]
  simp only [orEmpty_some]
  rw [if_pos (ne_of_not_hasSubCh hgot)]
  rw [if_neg]
  rintro (h | h)
  · exact ne_of_not_hasSubCh hfb h
  · rw [h] at hfb; cases hfb

theorem exactTokenStage_token (t : String) (env : SendEnv) (r : Option String) (k : Nat)
    (ht : ¬t = "")
    (hne : ¬jsTrim (orEmpty r) = t)
    (hfb : hasSubCh t.data (jsTrim (orEmpty (fallbackResult "aistudio" env k))).data = true) :
    exactTokenStage "aistudio" (some t) env r k = (.ok (some t), k + 1) := by
  have htr : truthy (some t) = true := by simp [truthy, ht]
  unfold exactTokenStage
  rw [if_pos ⟨rfl, htr⟩]
  simp only [orEmpty_some]
  rw [if_pos hne]
  rw [if_pos (Or.inr hfb)]

theorem blockerStage_skip (platform : String) (env : SendEnv) (r : Option String)
    (h : ¬jsTrim (orEmpty r) = "") :
    blockerStage platform env r = .ok r := by
  simp only [blockerStage]
  rw [if_neg (by rintro ⟨_, hh⟩; exact h hh)]

theorem postStages_count (platform : String) (expected : Option String) (pre : String)
    (env : SendEnv) :
    (postStages platform expected pre env).2 =
      (exactTokenStage platform expected env
        (staleStage platform pre env
          (emptyFallbackStage platform env env.fext).1
          (emptyFallbackStage platform env env.fext).2).1
        (staleStage platform pre env
          (emptyFallbackStage platform env env.fext).1
          (emptyFallbackStage platform env env.fext).2).2).2 := rfl

theorem postStages_result (platform : String) (expected : Option String) (pre : String)
    (env : SendEnv) :
    (postStages platform expected pre env).1 =
      finishStage platform env
        ((exactTokenStage platform expected env
          (staleStage platform pre env
            (emptyFallbackStage platform env env.fext).1
            (emptyFallbackStage platform env env.fext).2).1
          (staleStage platform pre env
            (emptyFallbackStage platform env env.fext).1
            (emptyFallbackStage platform env env.fext).2).2).1) := rfl

theorem sendCore_eq_postStages (platform prompt : String) (images : List String)
    (env : SendEnv) (q : Nat)
    (hres : completionWait env.turns env.busy env.turns0 (requiredTurnDelta platform) =
      some q) :
    sendCore platform prompt images env =
      postStages platform
        (if platform = "aistudio" then parseExpectedExactToken prompt else none)
        (if platform = "aistudio" then jsTrim (orEmpty env.pext) else "") env := by
  simp only [sendCore, hres]

theorem fallbackResult_aistudio (env : SendEnv) (k : Nat) :
    fallbackResult "aistudio" env k = env.fb k := by
  simp [fallbackResult]

/-- Whatever path the first two validation stages take, the response handed to
exact-token mode is either the fresh extraction or some fallback result. -/
theorem postStages_shape (platform : String) (expected : Option String) (pre : String)
    (env : SendEnv) :
    ∃ r2 k2, (postStages platform expected pre env).1 =
        finishStage platform env ((exactTokenStage platform expected env r2 k2).1) ∧
      (postStages platform expected pre env).2 =
        (exactTokenStage platform expected env r2 k2).2 ∧
      (r2 = env.fext ∨ ∃ j, r2 = fallbackResult platform env j) := by
  refine ⟨(staleStage platform pre env (emptyFallbackStage platform env env.fext).1
      (emptyFallbackStage platform env env.fext).2).1,
    (staleStage platform pre env (emptyFallbackStage platform env env.fext).1
      (emptyFallbackStage platform env env.fext).2).2, rfl, rfl, ?_⟩
  rcases staleStage_mem platform pre env (emptyFallbackStage platform env env.fext).1
      (emptyFallbackStage platform env env.fext).2 with h | ⟨j, h⟩
  · rw [h]
    rcases emptyFallbackStage_mem platform env env.fext with h1 | h1
    · exact Or.inl h1
    · exact Or.inr ⟨0, h1⟩
  · exact Or.inr ⟨j, h⟩

/-! ## Claim C3 -/

/-- **C3.** For an aistudio request whose prompt carries a (non-empty) expected
exact reply token: (a) when neither the fresh extraction nor any fallback tier
produces text whose trimmed form contains (hence, equals) the token, `send` fails
with the expectation-mismatch error instead of returning the wrong text; and
(b) when the primary extraction differs from the token but the fallback produces
text containing it, the returned reply is exactly the literal token, not the
surrounding sentence. -/
theorem c3_exact_token_mode (prompt : String) (images : List String) (env : SendEnv)
    (t : String) (hparse : parseExpectedExactToken prompt = some t) (ht : ¬t = "")
    (q : Nat)
    (hcw : completionWait env.turns env.busy env.turns0 (requiredTurnDelta "aistudio") =
      some q) :
    ((hasSubCh t.data (jsTrim (orEmpty env.fext)).data = false) →
      (∀ k, hasSubCh t.data (jsTrim (orEmpty (env.fb k))).data = false) →
      ∃ got, sendModel "aistudio" prompt images env =
        .error ("Exact-token mode failed. expected=\"" ++ t ++ "\" got=\"" ++ got ++ "\"")) ∧
    (∀ s : String, env.fext = some s → ¬jsTrim s = "" →
      thoughtsLike (jsTrim s) = false →
      ¬jsTrim s = jsTrim (orEmpty env.pext) →
      ¬jsTrim s = t →
      hasSubCh t.data (jsTrim (orEmpty (env.fb 0))).data = true →
      sendModel "aistudio" prompt images env = .ok (some t)) := by
  have hsend : sendModel "aistudio" prompt images env =
      (postStages "aistudio" (some t) (jsTrim (orEmpty env.pext)) env).1 := by
    unfold sendModel
    rw [sendCore_eq_postStages "aistudio" prompt images env q hcw]
    simp [hparse]
  constructor
  · intro hfext hfb
    obtain ⟨r2, k2, heq, _, hmem⟩ :=
      postStages_shape "aistudio" (some t) (jsTrim (orEmpty env.pext)) env
    have hr2 : hasSubCh t.data (jsTrim (orEmpty r2)).data = false := by
      rcases hmem with h | ⟨j, h⟩
      · rw [h]; exact hfext
      · rw [h, fallbackResult_aistudio]; exact hfb j
    have hstep := exactTokenStage_error t env r2 k2 ht hr2
      (by rw [fallbackResult_aistudio]; exact hfb k2)
    refine ⟨jsTrim (orEmpty r2), ?_⟩
    rw [hsend, heq, hstep]
    rfl
  · intro s hfexteq hs1 hth hneq hst hfb0
    have h1 : emptyFallbackStage "aistudio" env env.fext = (env.fext, 0) := by
      rw [hfexteq]
      exact emptyFallbackStage_skip "aistudio" env (some s)
        (by simpa [orEmpty_some] using hs1) (by simpa [orEmpty_some] using hth)
    have h1a : (emptyFallbackStage "aistudio" env env.fext).1 = env.fext := by rw [h1]
    have h1b : (emptyFallbackStage "aistudio" env env.fext).2 = 0 := by rw [h1]
    have h2 : staleStage "aistudio" (jsTrim (orEmpty env.pext)) env env.fext 0 =
        (env.fext, 0) :=
      staleStage_skip_of_ne _ env env.fext 0
        (by rw [hfexteq]; simpa [orEmpty_some] using hneq)
    have h3 : exactTokenStage "aistudio" (some t) env env.fext 0 = (.ok (some t), 1) := by
      apply exactTokenStage_token t env env.fext 0 ht
      · rw [hfexteq]; simpa [orEmpty_some] using hst
      · rw [fallbackResult_aistudio]; exact hfb0
    rw [hsend, postStages_result, h1a, h1b, h2, h3]
    show blockerStage "aistudio" env (some t) = .ok (some t)
    apply blockerStage_skip
    simp only [orEmpty_some, parseExpectedExactToken_trimmed hparse]
    exact ht

/-- Environment for the C3 scenario: the primary extraction reads
"Sure, OK!", the fallback locates the literal token "OK". -/
def c3Env : SendEnv :=
  { turns0 := 0, turns := fun _ => 99, busy := fun _ => false,
    sext := fun _ => some "Sure, OK!", fext := some "Sure, OK!",
    fb := fun _ => some "OK", pext := none, hint := none }

theorem c3_exact_token_mode_witness :
    sendModel "aistudio" "Reply with exactly: OK" [] c3Env = .ok (some "OK") :=
  (c3_exact_token_mode "Reply with exactly: OK" [] c3Env "OK" (by decide) (by decide)
      1 (by decide)).2
    "Sure, OK!" rfl (by decide) (by decide) (by decide) (by decide) (by decide)

/-! ## Claim C4 -/

/-- **C4.** For an aistudio request, if the post-wait extraction returns the
identical value that extraction returned immediately before submission, then
`send` performs at least one `extractFallback` invocation before returning
(first conjunct); and in the usual path (non-empty non-thoughts text, no exact
token requested) the fallback's text replaces the stale response whenever it is
non-empty and different (second conjunct). -/
theorem c4_stale_extraction_forces_fallback (prompt : String) (images : List String)
    (env : SendEnv) (q : Nat)
    (hcw : completionWait env.turns env.busy env.turns0 (requiredTurnDelta "aistudio") =
      some q)
    (hsame : env.fext = env.pext) :
    1 ≤ (sendCore "aistudio" prompt images env).2 ∧
    (∀ s : String, env.fext = some s → ¬jsTrim s = "" →
      thoughtsLike (jsTrim s) = false →
      truthy (parseExpectedExactToken prompt) = false →
      ¬jsTrim (orEmpty (env.fb 0)) = "" →
      ¬jsTrim (orEmpty (env.fb 0)) = jsTrim s →
      sendModel "aistudio" prompt images env = .ok (env.fb 0)) := by
  have hcore : sendCore "aistudio" prompt images env =
      postStages "aistudio" (parseExpectedExactToken prompt)
        (jsTrim (orEmpty env.pext)) env := by
    rw [sendCore_eq_postStages "aistudio" prompt images env q hcw]
    simp
  constructor
  · rw [hcore, postStages_count]
    refine le_trans ?_ (exactTokenStage_count_ge _ _ _ _ _)
    by_cases hcond : truthy env.fext = false ∨ jsTrim (orEmpty env.fext) = "" ∨
        ("aistudio" = "aistudio" ∧ thoughtsLike (jsTrim (orEmpty env.fext)) = true)
    · have hc1 := emptyFallbackStage_count_of_cond "aistudio" env env.fext hcond
      rw [hc1]
      exact le_trans (Nat.le_refl 1) (staleStage_count_ge _ _ _ _ _)
    · have hc2 : ¬jsTrim (orEmpty env.fext) = "" := fun h => hcond (Or.inr (Or.inl h))
      have hth : thoughtsLike (jsTrim (orEmpty env.fext)) = false := by
        cases hx : thoughtsLike (jsTrim (orEmpty env.fext)) with
        | false => rfl
        | true => exact absurd (Or.inr (Or.inr ⟨rfl, hx⟩)) hcond
      have h1 : emptyFallbackStage "aistudio" env env.fext = (env.fext, 0) :=
        emptyFallbackStage_skip "aistudio" env env.fext hc2 hth
      have h1a : (emptyFallbackStage "aistudio" env env.fext).1 = env.fext := by rw [h1]
      have h1b : (emptyFallbackStage "aistudio" env env.fext).2 = 0 := by rw [h1]
      rw [h1a, h1b]
      have hstale := staleStage_count_of_cond (jsTrim (orEmpty env.pext)) env env.fext 0
        hc2 (by rw [← hsame]; exact hc2) (by rw [hsame])
      rw [hstale]
  · intro s hfexteq hs1 hth htok hfb1 hfb2
    have hpexteq : env.pext = some s := by rw [← hsame, hfexteq]
    have hsend : sendModel "aistudio" prompt images env =
        (postStages "aistudio" (parseExpectedExactToken prompt)
          (jsTrim (orEmpty env.pext)) env).1 := by
      unfold sendModel
      rw [hcore]
    have h1 : emptyFallbackStage "aistudio" env env.fext = (env.fext, 0) := by
      rw [hfexteq]
      exact emptyFallbackStage_skip "aistudio" env (some s)
        (by simpa [orEmpty_some] using hs1) (by simpa [orEmpty_some] using hth)
    have h1a : (emptyFallbackStage "aistudio" env env.fext).1 = env.fext := by rw [h1]
    have h1b : (emptyFallbackStage "aistudio" env env.fext).2 = 0 := by rw [h1]
    have h2 : staleStage "aistudio" (jsTrim (orEmpty env.pext)) env env.fext 0 =
        (env.fb 0, 1) := by
      have := staleStage_fallback (jsTrim (orEmpty env.pext)) env env.fext 0
        (by rw [hfexteq]; simpa [orEmpty_some] using hs1)
        (by rw [hpexteq]; simpa [orEmpty_some] using hs1)
        (by rw [hfexteq, hpexteq])
        (by rw [fallbackResult_aistudio]; exact hfb1)
        (by rw [fallbackResult_aistudio, hfexteq]; simpa [orEmpty_some] using hfb2)
      rw [fallbackResult_aistudio] at this
      exact this
    have h3 : exactTokenStage "aistudio" (parseExpectedExactToken prompt) env
        (env.fb 0) 1 = (.ok (env.fb 0), 1) :=
      exactTokenStage_skip_of_inactive "aistudio" _ env (env.fb 0) 1 htok
    rw [hsend, postStages_result, h1a, h1b, h2, h3]
    show blockerStage "aistudio" env (env.fb 0) = .ok (env.fb 0)
    exact blockerStage_skip "aistudio" env (env.fb 0) hfb1

/-- Environment for the C4 witness: pre-send and post-wait extraction both read
"old reply"; the fallback recovers "fresh reply". -/
def c4Env : SendEnv :=
  { turns0 := 0, turns := fun _ => 99, busy := fun _ => false,
    sext := fun _ => some "old reply", fext := some "old reply",
    fb := fun _ => some "fresh reply", pext := some "old reply", hint := none }

theorem c4_stale_extraction_witness :
    1 ≤ (sendCore "aistudio" "hi" [] c4Env).2 ∧
    sendModel "aistudio" "hi" [] c4Env = .ok (some "fresh reply") :=
  ⟨(c4_stale_extraction_forces_fallback "hi" [] c4Env 1 (by decide) rfl).1,
   (c4_stale_extraction_forces_fallback "hi" [] c4Env 1 (by decide) rfl).2
     "old reply" rfl (by decide) (by decide) (by decide) (by decide) (by decide)⟩

/-! ## Claim C8: when is a second cleaning pass the identity? -/

theorem normalizeCRLF_eq_self : ∀ cs : List Char, hasCRLF cs = false →
    normalizeCRLF cs = cs
  | [], _ => rfl
  | [c], _ => rfl
  | c1 :: c2 :: rest, h => by
    rw [hasCRLF] at h
    simp only [Bool.or_eq_false_iff] at h
    rw [normalizeCRLF]
    rw [if_neg]
    · rw [normalizeCRLF_eq_self (c2 :: rest) h.2]
    · rintro ⟨ha, hb⟩
      rw [ha, hb] at h
      simp at h

theorem splitOnNl_ne_nil : ∀ cs : List Char, splitOnNl cs ≠ [] := by
  intro cs
  cases cs with
  | nil => simp [splitOnNl]
  | cons c rest =>
    rw [splitOnNl]
    split
    · simp
    · split
      · simp
      · simp

theorem joinNl_splitOnNl : ∀ cs : List Char, joinNl (splitOnNl cs) = cs
  | [] => rfl
  | c :: rest => by
    rw [splitOnNl]
    by_cases hc : c = '\n'
    · rw [if_pos hc]
      cases hs : splitOnNl rest with
      | nil => exact absurd hs (splitOnNl_ne_nil rest)
      | cons l ls =>
        show ([] ++ '\n' :: joinNl (l :: ls) : List Char) = c :: rest
        rw [List.nil_append, ← hs, joinNl_splitOnNl rest, hc]
    · rw [if_neg hc]
      cases hs : splitOnNl rest with
      | nil => exact absurd hs (splitOnNl_ne_nil rest)
      | cons l ls =>
        have hrec := joinNl_splitOnNl rest
        rw [hs] at hrec
        cases ls with
        | nil =>
          simp only [joinNl] at hrec ⊢
          rw [hrec]
        | cons l2 ls2 =>
          simp only [joinNl, List.cons_append] at hrec ⊢
          rw [hrec]

theorem map_trim_eq_self {ls : List (List Char)} (h : ∀ l ∈ ls, trimChars l = l) :
    ls.map trimChars = ls := by
  induction ls with
  | nil => rfl
  | cons a ls ih =>
    simp only [List.map_cons]
    rw [h a (by simp), ih (fun l hl => h l (by simp [hl]))]

/-- No two adjacent lines are equal. -/
def adjDistinct : List (List Char) → Bool
  | [] => true
  | [_] => true
  | a :: b :: rest => !decide (a = b) && adjDistinct (b :: rest)

/-- Collapsing adjacent duplicates is the identity on lists without adjacent
duplicates. -/
theorem dedupeAdj_of_adjDistinct : ∀ ls : List (List Char),
    adjDistinct ls = true → dedupeAdj ls = ls
  | [], _ => rfl
  | [a], _ => rfl
  | a :: b :: rest, h => by
    rw [adjDistinct] at h
    simp only [Bool.and_eq_true] at h
    rw [dedupeAdj]
    rw [if_neg (by simpa using h.1)]
    rw [dedupeAdj_of_adjDistinct (b :: rest) h.2]

theorem stripCitationsGo_eq_self : ∀ (fuel : Nat) (l : List Char),
    l.length ≤ fuel → hasCitation l = false → stripCitationsGo fuel l = l := by
  intro fuel
  induction fuel with
  | zero => intro l _ _; rw [stripCitationsGo]
  | succ n ih =>
    intro l h1 h2
    cases l with
    | nil => rfl
    | cons c rest =>
      rw [hasCitation] at h2
      simp only [Bool.or_eq_false_iff] at h2
      have hlen : rest.length ≤ n := by
        simp only [List.length_cons] at h1
        omega
      rw [stripCitationsGo]
      by_cases hc : c = '['
      · have hnone : citSpan rest = none := by
          rcases Bool.and_eq_false_iff.mp h2.1 with h | h
          · rw [hc] at h; simp at h
          · exact Option.not_isSome_iff_eq_none.mp (by simp [h])
        rw [if_pos hc, hnone]
        show c :: stripCitationsGo n rest = c :: rest
        rw [ih rest hlen h2.2]
      · rw [if_neg hc]
        rw [ih rest hlen h2.2]

theorem stripCitations_eq_self (l : List Char) (h : hasCitation l = false) :
    stripCitations l = l :=
  stripCitationsGo_eq_self l.length l (Nat.le_refl _) h

/-- A line that survives a cleaning pass unchanged: trimmed, non-empty, and not
matching any artifact pattern. -/
def cleanLine (l : List Char) : Bool :=
  decide (trimChars l = l) && !l.isEmpty && !isArtifactLine l

/-- The condition under which a further cleaning pass leaves a string unchanged:
no CR LF pair, every line already clean, no adjacent duplicate lines, the whole
string trimmed, no leading `Model`, and no citation marker. -/
def goodOutput (t : String) : Bool :=
  !hasCRLF t.data &&
  (splitOnNl t.data).all cleanLine &&
  adjDistinct (splitOnNl t.data) &&
  decide (trimChars t.data = t.data) &&
  !listStarts "Model".data t.data &&
  !hasCitation t.data

theorem cleanCore_fixpoint (cs : List Char)
    (h1 : hasCRLF cs = false)
    (h2 : ∀ l ∈ splitOnNl cs, cleanLine l = true)
    (h3 : adjDistinct (splitOnNl cs) = true)
    (h4 : trimChars cs = cs)
    (h5 : listStarts "Model".data cs = false)
    (h6 : hasCitation cs = false) :
    cleanCore cs = cs := by
  have hline : ∀ l ∈ splitOnNl cs,
      trimChars l = l ∧ l.isEmpty = false ∧ isArtifactLine l = false := by
    intro l hl
    have := h2 l hl
    simp only [cleanLine, Bool.and_eq_true, decide_eq_true_eq, Bool.not_eq_true'] at this
    exact ⟨this.1.1, this.1.2, this.2⟩
  simp only [cleanCore]
  rw [normalizeCRLF_eq_self cs h1]
  rw [map_trim_eq_self (fun l hl => (hline l hl).1)]
  rw [List.filter_eq_self.mpr (fun a ha => by
    simp only [Bool.not_eq_true']
    exact (hline a (List.mem_of_mem_filter ha)).2.2)]
  rw [List.filter_eq_self.mpr (fun a ha => by
    simp only [Bool.not_eq_true']
    exact (hline a ha).2.1)]
  rw [dedupeAdj_of_adjDistinct _ h3]
  rw [joinNl_splitOnNl, h4]
  rw [if_neg (by simp [h5])]
  rw [stripCitations_eq_self cs h6, h4]

/-- **C8, counterexample.** The text-cleaning transform is not idempotent:
`"edit[1]"` cleans to `"edit"` (the citation marker is stripped only after the
artifact-line filter has run), and a second pass then removes `"edit"` as a
UI-artifact line, producing the empty string. -/
theorem c8_counterexample :
    cleanExtractedLines (cleanExtractedLines "edit[1]") ≠
      cleanExtractedLines "edit[1]" := by decide

/-- **C8, amended.** A second application of `cleanExtractedLines` returns its
input unchanged whenever the first pass's output is in "good" shape — no CR LF
pair, every line trimmed/non-empty/non-artifact, no adjacent duplicate lines,
overall trimmed, no leading `Model`, no citation marker; idempotence can fail
when the first pass's own rewriting (citation stripping, `Model`-dropping)
exposes new artifact lines, duplicates, or a fresh `Model` head. -/
theorem c8_clean_idempotent_on_good_outputs (s : String)
    (h : goodOutput (cleanExtractedLines s) = true) :
    cleanExtractedLines (cleanExtractedLines s) = cleanExtractedLines s := by
  simp only [goodOutput, Bool.and_eq_true, Bool.not_eq_true', decide_eq_true_eq,
    List.all_eq_true] at h
  obtain ⟨⟨⟨⟨⟨h1, h2⟩, h3⟩, h4⟩, h5⟩, h6⟩ := h
  have hfix := cleanCore_fixpoint (cleanExtractedLines s).data h1 h2 h3 h4 h5 h6
  show (⟨cleanCore (cleanExtractedLines s).data⟩ : String) = cleanExtractedLines s
  rw [hfix]

theorem c8_clean_idempotent_witness :
    cleanExtractedLines (cleanExtractedLines "Hello there") =
      cleanExtractedLines "Hello there" :=
  c8_clean_idempotent_on_good_outputs "Hello there" (by decide)

/-! ## Claim C10 -/

/-- Claim-side predicate, modelling the claim's words for a refinement check: a
single line matching `Reply with exactly: <rest of line>` case-insensitively,
with the token the trimmed remainder of that line. -/
def claimMatchAt (l : List Char) : Option (List Char) :=
  (matchLitCi "reply".data l).bind fun r1 =>
  (matchWsPlus r1).bind fun r2 =>
  (matchLitCi "with".data r2).bind fun r3 =>
  (matchWsPlus r3).bind fun r4 =>
  (matchLitCi "exactly:".data r4).map fun r5 => trimChars r5

/-- Claim-side predicate: scan one line for the pattern; the token is the trimmed
remainder of that line after the colon. -/
def claimLineToken : List Char → Option (List Char)
  | [] => none
  | c :: rest =>
    match claimMatchAt (c :: rest) with
    | some tok => some tok
    | none => claimLineToken rest

/-- **C10, counterexample.** For the prompt `"Reply with exactly:\nOK"` the code
activates exact-token validation with token `"OK"` — the regex's `\s*` after the
colon crosses the line break, so the token is drawn from the *next* line — while
no line of the prompt yields a non-empty token as "the trimmed remainder of that
line": the claim's line-local characterisation is false. -/
theorem c10_counterexample :
    parseExpectedExactToken "Reply with exactly:\nOK" = some "OK" ∧
    truthy (parseExpectedExactToken "Reply with exactly:\nOK") = true ∧
    (∀ l ∈ splitOnNl (normalizeCRLF ("Reply with exactly:\nOK").data),
      claimLineToken l = none ∨ claimLineToken l = some []) := by decide

theorem listStarts_append_false : ∀ (pat pre : List Char), listStarts pat pre = false →
    pat.length ≤ pre.length → ∀ x, listStarts pat (pre ++ x) = false
  | [], _, h, _, _ => by cases h
  | _ :: _, [], _, hlen, _ => by simp at hlen
  | p :: ps, c :: cs, h, hlen, x => by
    rw [listStarts] at h
    simp only [List.cons_append]
    rw [listStarts]
    rcases Bool.and_eq_false_iff.mp h with h1 | h1
    · simp [h1]
    · have hrec := listStarts_append_false ps cs h1 (by simpa using hlen) x
      simp [hrec]

/-- **C10, amended.** The expected token is derived solely from the prompt by
`parseExpectedExactToken`, whose regex may span line breaks (see the
counterexample); the token it yields is always already trimmed; and whenever the
prompt yields no truthy token, an aistudio interaction can never fail with the
expectation-mismatch error — any error it reports is a different one. -/
theorem c10_token_from_prompt :
    (∀ (prompt : String) (images : List String) (env : SendEnv) (e : String),
      truthy (parseExpectedExactToken prompt) = false →
      sendModel "aistudio" prompt images env = .error e →
      listStarts "Exact-token mode failed.".data e.data = false) ∧
    (∀ prompt t : String, parseExpectedExactToken prompt = some t → jsTrim t = t) := by
  constructor
  · intro prompt images env e htok hsend
    cases hcw : completionWait env.turns env.busy env.turns0 (requiredTurnDelta "aistudio") with
    | none =>
      unfold sendModel at hsend
      simp only [sendCore, hcw] at hsend
      change Except.error "Timeout waiting for response (3 min)" = Except.error e at hsend
      injection hsend with he
      subst he
      decide
    | some q =>
      have hpost : sendCore "aistudio" prompt images env =
          postStages "aistudio" (parseExpectedExactToken prompt)
            (jsTrim (orEmpty env.pext)) env := by
        rw [sendCore_eq_postStages "aistudio" prompt images env q hcw]
        simp
      unfold sendModel at hsend
      rw [hpost] at hsend
      obtain ⟨r2, k2, heq, _, _⟩ :=
        postStages_shape "aistudio" (parseExpectedExactToken prompt)
          (jsTrim (orEmpty env.pext)) env
      rw [heq] at hsend
      rw [exactTokenStage_skip_of_inactive "aistudio" (parseExpectedExactToken prompt)
        env r2 k2 htok] at hsend
      change blockerStage "aistudio" env r2 = Except.error e at hsend
      unfold blockerStage at hsend
      by_cases hcond : ("aistudio" : String) = "aistudio" ∧ jsTrim (orEmpty r2) = ""
      · rw [if_pos hcond] at hsend
        cases hhint : env.hint with
        | none => rw [hhint] at hsend; cases hsend
        | some hint =>
          rw [hhint] at hsend
          injection hsend with he
          subst he
          rw [String.data_append, String.data_append, List.append_assoc]
          exact listStarts_append_false _ _ (by decide) (by decide) _
      · rw [if_neg hcond] at hsend
        cases hsend
  · intro prompt t h
    exact parseExpectedExactToken_trimmed h

/-- An environment whose busy flag never clears, so the interaction fails with
the response-timeout error (which is not an expectation mismatch). -/
def c10Env : SendEnv :=
  { turns0 := 0, turns := fun _ => 99, busy := fun _ => true,
    sext := fun _ => none, fext := none, fb := fun _ => none, pext := none, hint := none }

theorem c10_token_from_prompt_witness :
    listStarts "Exact-token mode failed.".data
      ("Timeout waiting for response (3 min)").data = false :=
  c10_token_from_prompt.1 "hi" [] c10Env "Timeout waiting for response (3 min)"
    (by decide) (by rfl)

end Lotl
